import Mathlib

/-
Verification of the frame-capture and encode-staging pipeline of the
lost-words-reel-generator repository.

The embedding below is a shallow model of the export pipeline implemented in
the application component (src/unnamed/part_002) and the canvas component
(src/src/components/PixiCanvas.tsx):

- `FrameData`            mirrors the FrameData interface (part_002, lines 20-24);
- `convertRGBAToPNG`     mirrors the transcoder (part_002, lines 162-201);
- `downsamplePixels`     mirrors the GPU downsampler (part_002, lines 253-292);
  the browser drawImage/getImageData resampling is a host API, so its pixel
  values are modelled by an executable nearest-sample stand-in; only the
  shape (a targetWidth x targetHeight RGBA buffer) is relied upon;
- `extractFramePixels`   mirrors the per-frame extraction paths
  (part_002, lines 458-521);
- `captureFrames`        mirrors the batch loop with its periodic payload
  clearing (part_002, lines 430-600);
- `sortFrames`           mirrors `allFrames.sort((a, b) => a.frameIndex - b.frameIndex)`
  (part_002, line 600);
- `chooseTransport`      mirrors the raw-vs-PNG memory policy (part_002, lines 608-620);
- `rawConcat`            mirrors the chunked raw-buffer concatenation
  (part_002, lines 644-669), with the Uint8Array.set range check made explicit;
- `writeStage`           mirrors the write stage with its PNG fallback
  (part_002, lines 608-695);
- `setExportMode`, `handleExportSession` mirror the render-state save/restore
  (PixiCanvas.tsx, lines 59-160, and part_002, lines 294-873);
- `handleExportEvents`   mirrors the observable event order of handleExport
  (try body / catch toast / finally restoration).

Machine numbers: all sizes and indices are natural numbers.  The only
floating-point computation relevant to a claim is
`totalMemoryGB = framePixelCount * frameCount / 1024 ** 3 > 1.5`
(part_002, lines 613-617): the product is an integer below 2 ** 53, hence exact
in float64, and dividing by 2 ** 30 only shifts the exponent, so the test is
exactly `framePixelCount * frameCount > 1610612736`, which is how it is
embedded here.
-/

/-- Mirrors the FrameData interface (part_002, lines 20-24): a captured frame
payload (byte buffer as a list of bytes), its frame index, and whether the
payload is raw RGBA. -/
structure FrameData where
  frameData : List ℕ
  frameIndex : ℕ
  isRawPixels : Bool
  deriving DecidableEq, Repr

/-- A byte blob written to the ffmpeg staging area.  PNG blobs are opaque host
output, so they are represented by the inputs that produced them. -/
inductive FileData where
  | png (width height : ℕ) (quality : ℚ) (src : List ℕ)
  deriving DecidableEq, Repr

/-- Mirrors convertRGBAToPNG (part_002, lines 162-201).  The source throws on
an empty buffer (lines 169-171), logs console warnings on a size mismatch but
proceeds (lines 172-176), and otherwise returns the PNG encoding of the
buffer.  The returned pair carries the emitted warnings alongside the blob;
host canvas encoding is modelled as always succeeding. -/
def convertRGBAToPNG (pixels : List ℕ) (width height : ℕ) (quality : ℚ) :
    Except String (List String × FileData) :=
  let expectedSize := width * height * 4
  if pixels.length = 0 then
    .error "Empty pixel data"
  else
    .ok (if pixels.length = expectedSize then [] else ["Pixel size mismatch"],
         FileData.png width height quality pixels)

/-- Mirrors downsamplePixels (part_002, lines 253-292).  The host
drawImage/getImageData pass is modelled by nearest sampling; the property the
pipeline relies on is that the result is a targetWidth x targetHeight RGBA
buffer. -/
def downsamplePixels (sourcePixels : List ℕ)
    (sourceWidth sourceHeight targetWidth targetHeight : ℕ) : List ℕ :=
  (List.range (targetWidth * targetHeight * 4)).map (fun j =>
    let c := j % 4
    let p := j / 4
    let x := p % targetWidth
    let y := p / targetWidth
    let sx := x * sourceWidth / targetWidth
    let sy := y * sourceHeight / targetHeight
    sourcePixels.getD ((sy * sourceWidth + sx) * 4 + c) 0)

/-- The staged file name for a 1-based frame number (part_002, lines 628 and
682): the padStart(0, ...) call pads to width 0, so it is the identity. -/
def frameFileName (n : ℕ) : String :=
  "frame" ++ toString n ++ ".png"

/-- C7 counterexample: the transcoder does not survive every size mismatch.
The empty buffer has length 0, which differs from 1 * 1 * 4, yet
convertRGBAToPNG hard-fails on it with the Empty-pixel-data error
(part_002, lines 169-171) instead of logging and producing a PNG. -/
theorem convertRGBAToPNG_empty_input_hard_fails :
    ([] : List ℕ).length ≠ 1 * 1 * 4 ∧
    convertRGBAToPNG [] 1 1 1 = .error "Empty pixel data" := by
  exact ⟨by decide, rfl⟩

/-- C7 amended: convertRGBAToPNG validates rgba.length = width * height * 4;
for every non-empty input whose length differs it only logs the mismatch
warning and still produces the PNG blob; the one size mismatch that
hard-fails is the empty buffer. -/
theorem convertRGBAToPNG_mismatch_warns_and_proceeds
    (pixels : List ℕ) (width height : ℕ) (quality : ℚ)
    (hne : pixels ≠ []) (hmismatch : pixels.length ≠ width * height * 4) :
    convertRGBAToPNG pixels width height quality =
      .ok (["Pixel size mismatch"], FileData.png width height quality pixels) := by
  unfold convertRGBAToPNG
  rw [if_neg (by simpa using hne), if_neg (by simpa using hmismatch)]

/-- C7 amended, witness: a one-byte buffer against 1 x 1 dimensions. -/
theorem convertRGBAToPNG_mismatch_warns_and_proceeds_witness :
    convertRGBAToPNG [7] 1 1 1 =
      .ok (["Pixel size mismatch"], FileData.png 1 1 1 [7]) :=
  convertRGBAToPNG_mismatch_warns_and_proceeds [7] 1 1 1 (by decide) (by decide)

/-- The three per-frame extraction paths of the batch capture task
(part_002, lines 458-521). -/
inductive ExtractionPath where
  /-- gl.readPixels succeeded (lines 464-497). -/
  | webglRead
  /-- gl.readPixels threw and the task fell back to renderer.extract.pixels
  (lines 498-502). -/
  | webglReadFailed
  /-- no WebGL context: renderer.extract.pixels from the start (lines 503-521). -/
  | pixiExtract
  deriving DecidableEq, Repr

/-- Mirrors the per-frame pixel acquisition (part_002, lines 458-521).
`canvasPixels` is the gl.readPixels result (a buffer at the actual canvas
resolution) and `stagePixels` is the renderer.extract.pixels result (also at
the source/stage resolution).  Only the webglRead path downsamples when
config.exportResolution < 1.0 (lines 481-493); both fallback paths return the
extracted buffer unchanged. -/
def extractFramePixels (actualCanvasWidth actualCanvasHeight exportWidth exportHeight : ℕ)
    (exportResolutionLtOne : Bool) (canvasPixels stagePixels : List ℕ)
    (path : ExtractionPath) : List ℕ :=
  match path with
  | .webglRead =>
      if exportResolutionLtOne then
        downsamplePixels canvasPixels actualCanvasWidth actualCanvasHeight
          exportWidth exportHeight
      else canvasPixels
  | .webglReadFailed => stagePixels
  | .pixiExtract => stagePixels

/-- C6: with exportResolution = 0.75 on a 1080 x 1920 canvas
(exportWidth = 810, exportHeight = 1440), the direct WebGL path yields an
810 * 1440 * 4 buffer, but the higher-level extraction fallback path is never
downsampled: it stays at 1080 * 1920 * 4 bytes, which differs from
810 * 1440 * 4.  This evaluates the code at the failing input of the code_bug
verdict. -/
theorem extractFramePixels_fallback_not_downsampled :
    (extractFramePixels 1080 1920 810 1440 true
        (List.replicate (1080 * 1920 * 4) 0) (List.replicate (1080 * 1920 * 4) 0)
        ExtractionPath.webglReadFailed).length = 1080 * 1920 * 4 ∧
    (extractFramePixels 1080 1920 810 1440 true
        (List.replicate (1080 * 1920 * 4) 0) (List.replicate (1080 * 1920 * 4) 0)
        ExtractionPath.webglRead).length = 810 * 1440 * 4 ∧
    (1080 * 1920 * 4 : ℕ) ≠ 810 * 1440 * 4 := by
  refine ⟨?_, ?_, by norm_num⟩
  · show (List.replicate (1080 * 1920 * 4) 0).length = 1080 * 1920 * 4
    rw [List.length_replicate]
  · show (downsamplePixels (List.replicate (1080 * 1920 * 4) 0)
        1080 1920 810 1440).length = 810 * 1440 * 4
    unfold downsamplePixels
    rw [List.length_map, List.length_range]

/-- The two pixel-transport strategies of the write stage (spec section 4.5;
part_002, lines 608-620). -/
inductive TransportStrategy where
  | rawPixel
  | compressedImage
  deriving DecidableEq, Repr

/-- Mirrors the transport choice (part_002, lines 608-620):
`originalRawPixelMode` is allFrames[0].isRawPixels (the configured
preference); in raw mode the code computes
totalMemoryGB = exportWidth * exportHeight * 4 * frameCount / 1024 ** 3 and
overrides to PNG when it exceeds 1.5 (exactly: when the byte count exceeds
1610612736 = 1.5 * 2 ** 30; the float computation is exact, see the header
comment). -/
def chooseTransport (exportWidth exportHeight frameCount : ℕ)
    (originalRawPixelMode : Bool) : TransportStrategy :=
  if originalRawPixelMode then
    let framePixelCount := exportWidth * exportHeight * 4
    if 1610612736 < framePixelCount * frameCount then .compressedImage
    else .rawPixel
  else .compressedImage

/-- C3: with raw transport preferred, the selector overrides to
compressed-image transport exactly when
estimatedBytes = exportWidth * exportHeight * 4 * frameCount exceeds the
1.5 GiB threshold; and for exportWidth = 1080, exportHeight = 1920, every
frameCount with 1080 * 1920 * 4 * frameCount at or above 1.5 * 1024 ** 3
(that is, every frameCount at or above the rational bound, first integer 195)
gets compressed-image transport, never raw. -/
theorem chooseTransport_memory_policy :
    (∀ exportWidth exportHeight frameCount : ℕ,
      chooseTransport exportWidth exportHeight frameCount true =
          TransportStrategy.compressedImage ↔
        1610612736 < exportWidth * exportHeight * 4 * frameCount) ∧
    (∀ frameCount : ℕ, 1610612736 ≤ 1080 * 1920 * 4 * frameCount →
      chooseTransport 1080 1920 frameCount true =
        TransportStrategy.compressedImage) := by
  constructor
  · intro w h fc
    unfold chooseTransport
    constructor
    · intro hsel
      by_contra hle
      rw [if_pos rfl, if_neg hle] at hsel
      exact TransportStrategy.noConfusion hsel
    · intro hgt
      rw [if_pos rfl, if_pos hgt]
  · intro fc hge
    unfold chooseTransport
    rw [if_pos rfl, if_pos (by omega)]

/-- C3 witness: at 1080 x 1920 and 195 frames (the least frameCount meeting
the bound) the selector chooses compressed-image transport. -/
theorem chooseTransport_memory_policy_witness :
    chooseTransport 1080 1920 195 true = TransportStrategy.compressedImage :=
  chooseTransport_memory_policy.2 195 (by norm_num)

/-- One batch's extraction results in Promise.all order (part_002, lines
443-558): one FrameData per frameIndex in [batchStartFrame, batchEndFrame).
`payload` abstracts the buffer the extraction task produced for each index;
Promise.all resolves to the results in the order of the promise array, so the
batch contributes its records in ascending index order even when the tasks
settle out of order. -/
def batchFrames (payload : ℕ → List ℕ) (raw : Bool) (batchStartFrame batchEndFrame : ℕ) :
    List FrameData :=
  (List.range' batchStartFrame (batchEndFrame - batchStartFrame)).map
    (fun frameIndex => ⟨payload frameIndex, frameIndex, raw⟩)

/-- Mirrors the payload-clearing loop (part_002, lines 582-587): positions in
[clearStartFrame, clearEndFrame) get frameData replaced by an empty buffer
while the record and its frameIndex are kept.  The second argument is the
absolute position of the list head; the frameData truthiness test of the
source is always true (even an empty Uint8Array is truthy). -/
def clearFrameData (clearStartFrame clearEndFrame : ℕ) :
    List FrameData → ℕ → List FrameData
  | [], _ => []
  | f :: fs, i =>
      (if clearStartFrame ≤ i ∧ i < clearEndFrame then { f with frameData := [] } else f) ::
        clearFrameData clearStartFrame clearEndFrame fs (i + 1)

/-- One iteration of the batch loop (part_002, lines 437-590): push the batch
results, then, when batchIndex % 2 = 0 and batchIndex > 0 and batchIndex > 6
(lines 567 and 577), clear the payloads of the batch 6 batches back. -/
def captureStep (frameCount batchSize : ℕ) (payload : ℕ → List ℕ) (raw : Bool)
    (allFrames : List FrameData) (batchIndex : ℕ) : List FrameData :=
  let batchStartFrame := batchIndex * batchSize
  let batchEndFrame := min (batchStartFrame + batchSize) frameCount
  let allFrames2 := allFrames ++ batchFrames payload raw batchStartFrame batchEndFrame
  if batchIndex % 2 = 0 ∧ 0 < batchIndex ∧ 6 < batchIndex then
    let clearIndex := batchIndex - 6
    let clearStartFrame := clearIndex * batchSize
    let clearEndFrame := min (clearStartFrame + batchSize) allFrames2.length
    clearFrameData clearStartFrame clearEndFrame allFrames2 0
  else allFrames2

/-- Math.ceil(frameCount / batchSize) (part_002, line 433). -/
def numBatches (frameCount batchSize : ℕ) : ℕ :=
  (frameCount + batchSize - 1) / batchSize

/-- The whole batch capture loop (part_002, lines 430-590), producing the
allFrames array as it stands when the loop completes. -/
def captureFrames (frameCount batchSize : ℕ) (payload : ℕ → List ℕ) (raw : Bool) :
    List FrameData :=
  (List.range (numBatches frameCount batchSize)).foldl
    (captureStep frameCount batchSize payload raw) []

/-- allFrames.sort((a, b) => a.frameIndex - b.frameIndex) (part_002, line
600): a stable sort by ascending frameIndex. -/
def sortFrames (allFrames : List FrameData) : List FrameData :=
  allFrames.mergeSort (fun a b => a.frameIndex ≤ b.frameIndex)

/-- Position i's payload has been released once batches 0 .. bound - 1 have
run: its batch i / batchSize must be even and at least 2, and the clearing
pass at batch index i / batchSize + 6 must lie below the bound. -/
def clearedBefore (batchSize bound i : ℕ) : Prop :=
  (i / batchSize) % 2 = 0 ∧ 2 ≤ i / batchSize ∧ i / batchSize + 6 < bound

instance (batchSize bound i : ℕ) : Decidable (clearedBefore batchSize bound i) :=
  instDecidableAnd

/-- Closed form of the capture loop's result after `bound` batches: `n`
records in index order, payloads cleared exactly where `clearedBefore` says. -/
def captureSpec (payload : ℕ → List ℕ) (raw : Bool) (batchSize bound n : ℕ) :
    List FrameData :=
  (List.range n).map (fun i =>
    ⟨if clearedBefore batchSize bound i then [] else payload i, i, raw⟩)

lemma numBatches_mul_ge (frameCount batchSize : ℕ) (hbs : 0 < batchSize) :
    frameCount ≤ numBatches frameCount batchSize * batchSize := by
  rcases frameCount with _ | k
  · exact Nat.zero_le _
  · unfold numBatches
    rw [show k + 1 + batchSize - 1 = k + batchSize from by omega,
      Nat.add_div_right k hbs]
    have h2 := Nat.mod_add_div k batchSize
    have h3 : k % batchSize < batchSize := Nat.mod_lt k hbs
    have h4 : (k / batchSize + 1) * batchSize =
        batchSize * (k / batchSize) + batchSize := by ring
    rw [h4]
    linarith

lemma lt_numBatches_mul_lt (frameCount batchSize b : ℕ) (hbs : 0 < batchSize)
    (hb : b < numBatches frameCount batchSize) : b * batchSize < frameCount := by
  rcases frameCount with _ | k
  · exfalso
    unfold numBatches at hb
    rw [Nat.div_eq_of_lt (by omega)] at hb
    omega
  · unfold numBatches at hb
    rw [show k + 1 + batchSize - 1 = k + batchSize from by omega,
      Nat.add_div_right k hbs] at hb
    have h2 : b ≤ k / batchSize := by omega
    have h3 : b * batchSize ≤ k / batchSize * batchSize := Nat.mul_le_mul_right _ h2
    have h4 := Nat.div_mul_le_self k batchSize
    linarith [h3, h4]

lemma div_eq_iff_between (batchSize c i : ℕ) (hbs : 0 < batchSize) :
    i / batchSize = c ↔ c * batchSize ≤ i ∧ i < (c + 1) * batchSize := by
  rw [← Nat.le_div_iff_mul_le hbs, ← Nat.div_lt_iff_lt_mul hbs]
  omega

lemma clearFrameData_map_range' (s e : ℕ) (g : ℕ → FrameData) (n : ℕ) :
    ∀ a : ℕ, clearFrameData s e ((List.range' a n).map g) a =
      (List.range' a n).map (fun i =>
        if s ≤ i ∧ i < e then { g i with frameData := [] } else g i) := by
  induction n with
  | zero => intro a; rfl
  | succ n ih =>
      intro a
      rw [List.range'_succ, List.map_cons, List.map_cons]
      simp only [clearFrameData]
      rw [ih (a + 1)]

lemma captureFoldl_closedForm (frameCount batchSize : ℕ) (hbs : 0 < batchSize)
    (payload : ℕ → List ℕ) (raw : Bool) :
    ∀ b, b ≤ numBatches frameCount batchSize →
      (List.range b).foldl (captureStep frameCount batchSize payload raw) [] =
        captureSpec payload raw batchSize b (min (b * batchSize) frameCount) := by
  intro b
  induction b with
  | zero => intro _; simp [captureSpec]
  | succ b ih =>
      intro hb1
      have hb : b < numBatches frameCount batchSize := by omega
      have hlt : b * batchSize < frameCount := lt_numBatches_mul_lt _ _ _ hbs hb
      have hmin : min (b * batchSize) frameCount = b * batchSize := by omega
      rw [List.range_succ, List.foldl_append, ih (by omega), hmin,
        List.foldl_cons, List.foldl_nil]
      -- batchEndFrame of this step
      set E := min (b * batchSize + batchSize) frameCount with hE
      have hble : b * batchSize ≤ E := by omega
      have hEfc : min ((b + 1) * batchSize) frameCount = E := by
        rw [hE]; congr 1; ring
      -- appending this batch extends the closed form from b*batchSize to E
      have happend : captureSpec payload raw batchSize b (b * batchSize) ++
          batchFrames payload raw (b * batchSize) E =
          captureSpec payload raw batchSize b E := by
        unfold captureSpec batchFrames
        rw [List.range_eq_range' E, List.range_eq_range' (b * batchSize)]
        have hsplit : List.range' 0 E =
            List.range' 0 (b * batchSize) ++
              List.range' (b * batchSize) (E - b * batchSize) := by
          have h0 := List.range'_append 0 (b * batchSize) (E - b * batchSize) 1
          rw [show 0 + 1 * (b * batchSize) = b * batchSize from by ring] at h0
          rw [show E - b * batchSize + b * batchSize = E from by omega] at h0
          exact h0.symm
        rw [hsplit, List.map_append]
        congr 1
        apply List.map_congr_left
        intro i hi
        rw [List.mem_range'] at hi
        obtain ⟨k, hk, rfl⟩ := hi
        have hge : b ≤ (b * batchSize + 1 * k) / batchSize :=
          (Nat.le_div_iff_mul_le hbs).mpr (by omega)
        have hnc : ¬ clearedBefore batchSize b (b * batchSize + 1 * k) := by
          unfold clearedBefore
          omega
        rw [if_neg hnc]
      -- unfold the step
      show captureStep frameCount batchSize payload raw
          (captureSpec payload raw batchSize b (b * batchSize)) b =
        captureSpec payload raw batchSize (b + 1) (min ((b + 1) * batchSize) frameCount)
      rw [hEfc]
      unfold captureStep
      simp only []
      rw [← hE, happend]
      have hlen : (captureSpec payload raw batchSize b E).length = E := by
        unfold captureSpec
        rw [List.length_map, List.length_range]
      by_cases hC : b % 2 = 0 ∧ 0 < b ∧ 6 < b
      · rw [if_pos hC]
        rw [hlen]
        have h8 : 8 ≤ b := by omega
        have hcsbs : (b - 6) * batchSize + batchSize ≤ E := by
          have h1 : ((b - 6) + 1) * batchSize ≤ b * batchSize :=
            Nat.mul_le_mul_right _ (by omega)
          have h2 : ((b - 6) + 1) * batchSize =
              (b - 6) * batchSize + batchSize := by ring
          omega
        rw [min_eq_left hcsbs]
        unfold captureSpec
        rw [List.range_eq_range' E, clearFrameData_map_range']
        apply List.map_congr_left
        intro i hi
        rw [List.mem_range'] at hi
        obtain ⟨k, hk, rfl⟩ := hi
        rw [show (0 : ℕ) + 1 * k = k from by ring]
        by_cases hreg : (b - 6) * batchSize ≤ k ∧ k < (b - 6) * batchSize + batchSize
        · have hdiv : k / batchSize = b - 6 := by
            rw [div_eq_iff_between _ _ _ hbs]
            have : ((b - 6) + 1) * batchSize =
                (b - 6) * batchSize + batchSize := by ring
            omega
          have hcl : clearedBefore batchSize (b + 1) k := by
            unfold clearedBefore
            rw [hdiv]
            omega
          rw [if_pos hreg, if_pos hcl]
        · have hdiv : k / batchSize ≠ b - 6 := by
            intro h
            rw [div_eq_iff_between _ _ _ hbs] at h
            have : ((b - 6) + 1) * batchSize =
                (b - 6) * batchSize + batchSize := by ring
            omega
          have hiff : clearedBefore batchSize b k ↔ clearedBefore batchSize (b + 1) k := by
            unfold clearedBefore
            generalize k / batchSize = q at hdiv ⊢
            omega
          rw [if_neg hreg]
          by_cases hck : clearedBefore batchSize b k
          · rw [if_pos hck, if_pos (hiff.mp hck)]
          · rw [if_neg hck, if_neg (fun h => hck (hiff.mpr h))]
      · rw [if_neg hC]
        unfold captureSpec
        apply List.map_congr_left
        intro i hi
        rw [List.mem_range] at hi
        have hiff : clearedBefore batchSize b i ↔ clearedBefore batchSize (b + 1) i := by
          unfold clearedBefore
          generalize i / batchSize = q
          omega
        by_cases hck : clearedBefore batchSize b i
        · rw [if_pos hck, if_pos (hiff.mp hck)]
        · rw [if_neg hck, if_neg (fun h => hck (hiff.mpr h))]

lemma captureFrames_closedForm (frameCount batchSize : ℕ) (hbs : 0 < batchSize)
    (payload : ℕ → List ℕ) (raw : Bool) :
    captureFrames frameCount batchSize payload raw =
      captureSpec payload raw batchSize (numBatches frameCount batchSize) frameCount := by
  unfold captureFrames
  rw [captureFoldl_closedForm frameCount batchSize hbs payload raw _ le_rfl,
    min_eq_right (numBatches_mul_ge frameCount batchSize hbs)]

/-- C1: for every positive frameCount (and positive configured
frameCaptureSize; the presets use 30, 20 and 10), the allFrames array left by
the batch loop and then sorted in handleExport (part_002, line 600) contains
exactly frameCount records whose frameIndex values are 0 .. frameCount - 1 in
ascending order with no gaps or duplicates: its map over frameIndex is
List.range frameCount. -/
theorem captureStage_sorted_frames (frameCaptureSize frameCount : ℕ)
    (payload : ℕ → List ℕ) (raw : Bool)
    (hcs : 0 < frameCaptureSize) (hfc : 0 < frameCount) :
    (sortFrames (captureFrames frameCount (min frameCaptureSize frameCount)
        payload raw)).length = frameCount ∧
    (sortFrames (captureFrames frameCount (min frameCaptureSize frameCount)
        payload raw)).map FrameData.frameIndex = List.range frameCount := by
  have hbs : 0 < min frameCaptureSize frameCount := by omega
  rw [captureFrames_closedForm frameCount _ hbs payload raw]
  have hsorted : List.Pairwise
      (fun a b : FrameData => (a.frameIndex ≤ b.frameIndex : Bool) = true)
      (captureSpec payload raw (min frameCaptureSize frameCount)
        (numBatches frameCount (min frameCaptureSize frameCount)) frameCount) := by
    unfold captureSpec
    rw [List.pairwise_map]
    refine (List.pairwise_lt_range frameCount).imp ?_
    intro a b hab
    simpa using Nat.le_of_lt hab
  unfold sortFrames
  rw [List.mergeSort_of_sorted hsorted]
  constructor
  · unfold captureSpec
    rw [List.length_map, List.length_range]
  · unfold captureSpec
    rw [List.map_map]
    have hcomp : (FrameData.frameIndex ∘ fun i =>
        (⟨if clearedBefore (min frameCaptureSize frameCount)
            (numBatches frameCount (min frameCaptureSize frameCount)) i
          then [] else payload i, i, raw⟩ : FrameData)) = id := by
      funext i
      rfl
    rw [hcomp, List.map_id]

/-- C1 witness: 24 frames with frameCaptureSize 20 (the balanced preset's
batch size, two batches of 20 and 4). -/
theorem captureStage_sorted_frames_witness :
    (sortFrames (captureFrames 24 (min 20 24) (fun i => [i]) true)).length = 24 ∧
    (sortFrames (captureFrames 24 (min 20 24) (fun i => [i]) true)).map
      FrameData.frameIndex = List.range 24 :=
  captureStage_sorted_frames 20 24 (fun i => [i]) true (by decide) (by decide)

/-- C8 counterexample: 100 frames in 10 batches of 10 (more than 6 batches
processed).  Frame 10 sits in batch 1, which is older than 6 batches once the
loop finishes, yet its payload [1] is still held: the clearing pass (part_002,
lines 567-588) runs only after even batch indices above 6, clearing just the
single batch 6 back (here only batch 2, at batchIndex 8), so the claim that
every frame older than 6 batches is released is false. -/
theorem captureFrames_old_batch_payload_not_released :
    numBatches 100 10 = 10 ∧
    (captureFrames 100 10 (fun _ => [1]) true)[10]? = some ⟨[1], 10, true⟩ ∧
    (captureFrames 100 10 (fun _ => [1]) true)[20]? = some ⟨[], 20, true⟩ := by
  refine ⟨by decide, by decide, by decide⟩

/-- C8 amended: the reclamation pass runs only after even-numbered batch
indices greater than 6 and each pass clears exactly the one batch lying 6
batches back.  Hence, at the end of the loop, the record at position pos still
has frameIndex pos, and its payload has been released to an empty buffer
exactly when its batch pos / batchSize is even, at least 2, and at least 7
batches from the end; all other frames (including older odd-indexed batches
and batches 0 and 1) keep their payloads unchanged. -/
theorem captureFrames_released_iff (frameCount batchSize : ℕ) (hbs : 0 < batchSize)
    (payload : ℕ → List ℕ) (raw : Bool) (pos : ℕ) (hpos : pos < frameCount) :
    (captureFrames frameCount batchSize payload raw)[pos]? =
      some ⟨if (pos / batchSize) % 2 = 0 ∧ 2 ≤ pos / batchSize ∧
              pos / batchSize + 6 < numBatches frameCount batchSize
            then [] else payload pos, pos, raw⟩ := by
  rw [captureFrames_closedForm frameCount batchSize hbs payload raw]
  unfold captureSpec
  rw [List.getElem?_map, List.getElem?_range hpos]
  rfl

/-- C8 amended, witness: position 25 of the 100-frame, batch-size-10 run lies
in batch 2, which the pass at batchIndex 8 cleared. -/
theorem captureFrames_released_iff_witness :
    (captureFrames 100 10 (fun i => [i]) true)[25]? =
      some ⟨if (25 / 10) % 2 = 0 ∧ 2 ≤ 25 / 10 ∧ 25 / 10 + 6 < numBatches 100 10
            then [] else [25], 25, true⟩ :=
  captureFrames_released_iff 100 10 (by decide) (fun i => [i]) true 25 (by decide)

/-- Uint8Array.set: copy `data` into the buffer at `offset`.  The buffer is a
byte function; the caller checks the range. -/
def bufSet (buf : ℕ → ℕ) (offset : ℕ) (data : List ℕ) : ℕ → ℕ :=
  fun j => if offset ≤ j ∧ j < offset + data.length then data.getD (j - offset) 0 else buf j

/-- The inner writes of the raw concatenation (part_002, lines 654-660): for
each frame index in order, locate the frame by frameIndex (find, not array
position), and if present copy its payload at frameIndex * framePixelCount.
frame.frameData is always truthy in the source (even when empty), so a found
frame is always written; Uint8Array.set throws a RangeError when the write
would run past the end of the buffer, which the model makes explicit. -/
def writeRawFrames (allFrames : List FrameData) (framePixelCount totalLen : ℕ) :
    List ℕ → (ℕ → ℕ) → Except String (ℕ → ℕ)
  | [], buf => .ok buf
  | i :: rest, buf =>
      match allFrames.find? (fun f => f.frameIndex == i) with
      | some frame =>
          if i * framePixelCount + frame.frameData.length ≤ totalLen then
            writeRawFrames allFrames framePixelCount totalLen rest
              (bufSet buf (i * framePixelCount) frame.frameData)
          else .error "RangeError"
      | none => writeRawFrames allFrames framePixelCount totalLen rest buf

/-- The chunked frame-index order of the concatenation loop (part_002, lines
646-666): chunkSize = min(100, frameCount) chunks covering 0 .. frameCount - 1
in order (chunking only partitions the sequence and drives progress). -/
def chunkIndices (frameCount : ℕ) : List ℕ :=
  let chunkSize := min 100 frameCount
  let chunks := (frameCount + chunkSize - 1) / chunkSize
  (List.range chunks).flatMap (fun c =>
    List.range' (c * chunkSize)
      (min (c * chunkSize + chunkSize) frameCount - c * chunkSize))

/-- Mirrors the raw-pixel concatenation (part_002, lines 644-669): a zeroed
buffer of framePixelCount * frameCount bytes filled frame by frame in chunked
index order. -/
def rawConcat (allFrames : List FrameData) (framePixelCount frameCount : ℕ) :
    Except String (ℕ → ℕ) :=
  writeRawFrames allFrames framePixelCount (framePixelCount * frameCount)
    (chunkIndices frameCount) (fun _ => 0)

lemma chunkIndices_lt (frameCount : ℕ) :
    ∀ k ∈ chunkIndices frameCount, k < frameCount := by
  intro k hk
  unfold chunkIndices at hk
  rw [List.mem_flatMap] at hk
  obtain ⟨c, _, hk2⟩ := hk
  rw [List.mem_range'] at hk2
  obtain ⟨j, hj, rfl⟩ := hk2
  omega

lemma writeRawFrames_ok_and_zero (allFrames : List FrameData)
    (framePixelCount frameCount i : ℕ)
    (hlen : ∀ f ∈ allFrames, f.frameData.length ≤ framePixelCount)
    (hskip : ∀ f ∈ allFrames, f.frameIndex = i → f.frameData = []) :
    ∀ (idxs : List ℕ), (∀ k ∈ idxs, k < frameCount) → ∀ (buf : ℕ → ℕ),
      (∀ j, i * framePixelCount ≤ j → j < (i + 1) * framePixelCount → buf j = 0) →
      ∃ buf2, writeRawFrames allFrames framePixelCount
          (framePixelCount * frameCount) idxs buf = .ok buf2 ∧
        ∀ j, i * framePixelCount ≤ j → j < (i + 1) * framePixelCount → buf2 j = 0 := by
  intro idxs
  induction idxs with
  | nil =>
      intro _ buf hzero
      exact ⟨buf, rfl, hzero⟩
  | cons k rest ih =>
      intro hklt buf hzero
      have hkfc : k < frameCount := hklt k (by simp)
      have hrest : ∀ m ∈ rest, m < frameCount := fun m hm => hklt m (by simp [hm])
      unfold writeRawFrames
      cases hfind : allFrames.find? (fun f => f.frameIndex == k) with
      | none => exact ih hrest buf hzero
      | some frame =>
          have hmem : frame ∈ allFrames := List.mem_of_find?_eq_some hfind
          have hidx : frame.frameIndex = k := by
            have := List.find?_some hfind
            simpa using this
          have hfl : frame.frameData.length ≤ framePixelCount := hlen frame hmem
          have hbound : k * framePixelCount + frame.frameData.length ≤
              framePixelCount * frameCount := by
            have h1 : k * framePixelCount + frame.frameData.length ≤
                (k + 1) * framePixelCount := by
              have : (k + 1) * framePixelCount =
                  k * framePixelCount + framePixelCount := by ring
              omega
            have h2 : (k + 1) * framePixelCount ≤ frameCount * framePixelCount :=
              Nat.mul_le_mul_right _ (by omega)
            have h3 : frameCount * framePixelCount =
                framePixelCount * frameCount := by ring
            omega
          dsimp only
          rw [if_pos hbound]
          apply ih hrest
          intro j hj1 hj2
          unfold bufSet
          by_cases hki : k = i
          · subst hki
            have hempty : frame.frameData = [] := hskip frame hmem hidx
            rw [if_neg (by rw [hempty]; simp)]
            exact hzero j hj1 hj2
          · rw [if_neg ?_]
            · exact hzero j hj1 hj2
            · rintro ⟨hc1, hc2⟩
              rcases Nat.lt_or_ge k i with hlt | hge
              · have : (k + 1) * framePixelCount ≤ i * framePixelCount :=
                  Nat.mul_le_mul_right _ (by omega)
                have : k * framePixelCount + framePixelCount ≤
                    i * framePixelCount := by
                  have h4 : (k + 1) * framePixelCount =
                      k * framePixelCount + framePixelCount := by ring
                  omega
                omega
              · have hik : i + 1 ≤ k := by omega
                have : (i + 1) * framePixelCount ≤ k * framePixelCount :=
                  Nat.mul_le_mul_right _ hik
                omega

/-- C10: during raw-pixel concatenation, a frame index i whose record is
absent from allFrames, or whose payload was cleared to an empty buffer, is
silently skipped: the concatenation completes without error and the
framePixelCount-byte region of index i in the contiguous raw buffer is still
all zero bytes (an all-black, fully transparent frame).  The length hypothesis
reflects normal operation (each held payload is at most one frame). -/
theorem rawConcat_skipped_frame_region_zero (allFrames : List FrameData)
    (framePixelCount frameCount i : ℕ)
    (hlen : ∀ f ∈ allFrames, f.frameData.length ≤ framePixelCount)
    (hskip : ∀ f ∈ allFrames, f.frameIndex = i → f.frameData = []) :
    ∃ buf, rawConcat allFrames framePixelCount frameCount = .ok buf ∧
      ∀ j, i * framePixelCount ≤ j → j < (i + 1) * framePixelCount → buf j = 0 := by
  unfold rawConcat
  exact writeRawFrames_ok_and_zero allFrames framePixelCount frameCount i hlen hskip
    (chunkIndices frameCount) (chunkIndices_lt frameCount) (fun _ => 0)
    (fun _ _ _ => rfl)

/-- C10 witness: a two-frame session whose frame 1 was cleared to an empty
buffer and whose frame 0 record is absent; the concatenation succeeds and
frame 1's 4-byte region stays zero. -/
theorem rawConcat_skipped_frame_region_zero_witness :
    ∃ buf, rawConcat [⟨[], 1, true⟩] 4 2 = .ok buf ∧
      ∀ j, 1 * 4 ≤ j → j < (1 + 1) * 4 → buf j = 0 :=
  rawConcat_skipped_frame_region_zero [⟨[], 1, true⟩] 4 2 1
    (by intro f hf; simp at hf; rw [hf]; simp)
    (by intro f hf _; simp at hf; rw [hf])

/-- The PNG fallback/override write loop (part_002, lines 622-638 and
677-691): every frame of allFrames is converted with convertRGBAToPNG at
quality 85 and staged under frame(frameIndex + 1).png.  writeBatchSize only
groups the writeFile awaits; flattened, the staged files are one per frame in
array order. -/
def pngWriteAll (allFrames : List FrameData) (exportWidth exportHeight : ℕ) :
    Except String (List (String × FileData)) :=
  allFrames.mapM (fun frame =>
    (convertRGBAToPNG frame.frameData exportWidth exportHeight 85).map
      (fun r => (frameFileName (frame.frameIndex + 1), r.2)))

/-- Outcome of the write stage: the staged per-frame PNG files, the raw
concatenated buffer if one was written (raw_video.rgba), and the
useRawPixelPipeline flag passed on to the encoder arguments. -/
structure WriteOutcome where
  files : List (String × FileData)
  rawVideoData : Option (ℕ → ℕ)
  useRawPixelPipeline : Bool

/-- Mirrors the raw-preferred write stage (part_002, lines 611-695).
`allocFails` models the host allocation of the contiguous Uint8Array (line
648) throwing; the catch at line 671 also captures a RangeError escaping the
copy loop, and both recover by re-deriving PNG blobs from the held payloads
(lines 676-691), clearing the raw-pipeline flag. -/
def writeStage (allFrames : List FrameData) (exportWidth exportHeight frameCount : ℕ)
    (allocFails : Bool) : Except String WriteOutcome :=
  let framePixelCount := exportWidth * exportHeight * 4
  if 1610612736 < framePixelCount * frameCount then
    (pngWriteAll allFrames exportWidth exportHeight).map
      (fun fs => ⟨fs, none, false⟩)
  else if allocFails then
    (pngWriteAll allFrames exportWidth exportHeight).map
      (fun fs => ⟨fs, none, false⟩)
  else
    match rawConcat allFrames framePixelCount frameCount with
    | .ok buf => .ok ⟨[], some buf, true⟩
    | .error _ =>
        (pngWriteAll allFrames exportWidth exportHeight).map
          (fun fs => ⟨fs, none, false⟩)

lemma pngWriteAll_ok (allFrames : List FrameData) (exportWidth exportHeight : ℕ)
    (hne : ∀ f ∈ allFrames, f.frameData ≠ []) :
    pngWriteAll allFrames exportWidth exportHeight =
      .ok (allFrames.map (fun f =>
        (frameFileName (f.frameIndex + 1),
         FileData.png exportWidth exportHeight 85 f.frameData))) := by
  induction allFrames with
  | nil => rfl
  | cons f fs ih =>
      have hf : f.frameData ≠ [] := hne f (by simp)
      have hconv : convertRGBAToPNG f.frameData exportWidth exportHeight 85 =
          .ok (if f.frameData.length = exportWidth * exportHeight * 4 then []
               else ["Pixel size mismatch"],
               FileData.png exportWidth exportHeight 85 f.frameData) := by
        unfold convertRGBAToPNG
        rw [if_neg (by simpa using hf)]
      unfold pngWriteAll
      rw [List.mapM_cons]
      unfold pngWriteAll at ih
      rw [ih (fun g hg => hne g (by simp [hg])), hconv]
      rfl

/-- C4: when the raw-transport branch is taken (estimated bytes at or below
the 1.5 GiB threshold, raw preference) and the contiguous-buffer allocation
throws, the whole raw attempt is abandoned: the stage completes successfully
(the failure is never surfaced), no raw buffer is staged, the raw-pipeline
flag is cleared for the whole session, and every frame is re-derived as a PNG
blob from its still-held raw payload. -/
theorem rawAllocFailure_falls_back_to_png (allFrames : List FrameData)
    (exportWidth exportHeight frameCount : ℕ)
    (hmem : exportWidth * exportHeight * 4 * frameCount ≤ 1610612736)
    (hne : ∀ f ∈ allFrames, f.frameData ≠ []) :
    writeStage allFrames exportWidth exportHeight frameCount true =
      .ok ⟨allFrames.map (fun f =>
            (frameFileName (f.frameIndex + 1),
             FileData.png exportWidth exportHeight 85 f.frameData)),
           none, false⟩ := by
  unfold writeStage
  rw [if_neg (by omega), if_pos rfl,
    pngWriteAll_ok allFrames exportWidth exportHeight hne]
  rfl

/-- C4 witness: a one-frame 1 x 1 session whose allocation fails; the stage
recovers with a PNG staged from the raw payload. -/
theorem rawAllocFailure_falls_back_to_png_witness :
    writeStage [⟨[9, 9, 9, 9], 0, true⟩] 1 1 1 true =
      .ok ⟨[(frameFileName 1, FileData.png 1 1 85 [9, 9, 9, 9])], none, false⟩ := by
  have h := rawAllocFailure_falls_back_to_png [⟨[9, 9, 9, 9], 0, true⟩] 1 1 1
    (by norm_num) (by intro f hf; simp at hf; rw [hf]; simp)
  simpa using h

/-- The rendering-state fields saved and mutated by export mode
(PixiCanvas.tsx, lines 59-160, and the play state of the app component):
stage filter chain (null or a chain, abstracted by an identifier), layer
visibilities, background cacheAsBitmap, ticker run state and FPS limits, and
the play state. -/
structure RenderState where
  stageFilters : Option ℕ
  effectsLayerVisible : Bool
  hazeVisible : Bool
  grainVisible : Bool
  backgroundCacheAsBitmap : Bool
  tickerStarted : Bool
  tickerMaxFPS : ℕ
  tickerMinFPS : ℕ
  isPlaying : Bool
  deriving DecidableEq, Repr

/-- The _originalFilters / _originalVisible expando properties written by
setExportMode(true) and deleted on restore; none models undefined. -/
structure SavedProps where
  originalFilters : Option (Option ℕ)
  effectsOriginalVisible : Option Bool
  hazeOriginalVisible : Option Bool
  grainOriginalVisible : Option Bool
  deriving DecidableEq, Repr

/-- The canvas component's observable state: render state, saved expando
props, and whether the optional haze, grain and background layers exist
(their refs can be null; the source guards on them). -/
structure CanvasState where
  render : RenderState
  saved : SavedProps
  hazePresent : Bool
  grainPresent : Bool
  backgroundPresent : Bool
  deriving DecidableEq, Repr

/-- Mirrors setExportMode (PixiCanvas.tsx, lines 59-160), assuming the app
and effects-layer refs are live (the outer guard at line 62).  Enabling saves
filters and visibilities into the expando props, nulls the filters, hides the
layers, sets backgroundCacheAsBitmap to true, force-starts the ticker and
zeroes both FPS limits.  Disabling restores filters and visibilities from the
expando props when they are defined (deleting them), sets
backgroundCacheAsBitmap to false, force-starts the ticker and sets
maxFPS := 0, minFPS := 10; the final render() call has no state effect. -/
def setExportMode (enabled : Bool) (s : CanvasState) : CanvasState :=
  if enabled then
    let r := s.render
    { s with
      render := { r with
        stageFilters := none
        effectsLayerVisible := false
        hazeVisible := if s.hazePresent then false else r.hazeVisible
        grainVisible := if s.grainPresent then false else r.grainVisible
        backgroundCacheAsBitmap :=
          if s.backgroundPresent then true else r.backgroundCacheAsBitmap
        tickerStarted := true
        tickerMaxFPS := 0
        tickerMinFPS := 0 }
      saved := {
        originalFilters := some r.stageFilters
        effectsOriginalVisible := some r.effectsLayerVisible
        hazeOriginalVisible :=
          if s.hazePresent then some r.hazeVisible else s.saved.hazeOriginalVisible
        grainOriginalVisible :=
          if s.grainPresent then some r.grainVisible else s.saved.grainOriginalVisible } }
  else
    let s1 := match s.saved.originalFilters with
      | some f =>
          { s with
            render := { s.render with stageFilters := f },
            saved := { s.saved with originalFilters := none } }
      | none => s
    let s2 := match s1.saved.effectsOriginalVisible with
      | some v =>
          { s1 with
            render := { s1.render with effectsLayerVisible := v },
            saved := { s1.saved with effectsOriginalVisible := none } }
      | none => s1
    let s3 := if s2.hazePresent then
        match s2.saved.hazeOriginalVisible with
        | some v =>
            { s2 with
              render := { s2.render with hazeVisible := v },
              saved := { s2.saved with hazeOriginalVisible := none } }
        | none => s2
      else s2
    let s4 := if s3.grainPresent then
        match s3.saved.grainOriginalVisible with
        | some v =>
            { s3 with
              render := { s3.render with grainVisible := v },
              saved := { s3.saved with grainOriginalVisible := none } }
        | none => s3
      else s3
    let s5 := if s4.backgroundPresent then
        { s4 with render := { s4.render with backgroundCacheAsBitmap := false } }
      else s4
    let s6 := if s5.render.tickerStarted then s5
      else { s5 with render := { s5.render with tickerStarted := true } }
    { s6 with render := { s6.render with tickerMaxFPS := 0, tickerMinFPS := 10 } }

/-- The finally-block restore step (part_002, lines 850-871):
setExportMode(false), then ticker.stop() when the captured wasTickerRunning is
false, then setIsPlaying(false) when the captured wasPlaying is false. -/
def exportSessionRestore (wasTickerRunning wasPlaying : Bool) (s : CanvasState) :
    CanvasState :=
  let s1 := setExportMode false s
  let s2 := if wasTickerRunning then s1
    else { s1 with render := { s1.render with tickerStarted := false } }
  if wasPlaying then s2
  else { s2 with render := { s2.render with isPlaying := false } }

/-- One export session's effect on the render state (part_002, lines
294-873): setExportMode(true) at line 363; wasPlaying read at line 366
(setExportMode does not touch the play state); setIsPlaying(true) at lines
367-369; wasTickerRunning read at line 407, after setExportMode(true) has
already force-started the ticker; ticker.start() at lines 411-413; the
capture/write/encode stages and the catch toast (failurePath = true) do not
touch these fields, and both exit paths run the same finally restoration. -/
def handleExportSession (failurePath : Bool) (s0 : CanvasState) : CanvasState :=
  let s1 := setExportMode true s0
  let wasPlaying := s1.render.isPlaying
  let s2 := if s1.render.isPlaying then s1
    else { s1 with render := { s1.render with isPlaying := true } }
  let wasTickerRunning := s2.render.tickerStarted
  let s3 := if s2.render.tickerStarted then s2
    else { s2 with render := { s2.render with tickerStarted := true } }
  match failurePath with
  | true => exportSessionRestore wasTickerRunning wasPlaying s3
  | false => exportSessionRestore wasTickerRunning wasPlaying s3

/-- A pre-session state with a stopped ticker, custom FPS limits and a cached
background: the inputs on which the session fails to restore exactly. -/
def preSessionState : CanvasState :=
  { render := { stageFilters := some 7, effectsLayerVisible := true,
                hazeVisible := true, grainVisible := true,
                backgroundCacheAsBitmap := true, tickerStarted := false,
                tickerMaxFPS := 60, tickerMinFPS := 30, isPlaying := false },
    saved := { originalFilters := none, effectsOriginalVisible := none,
               hazeOriginalVisible := none, grainOriginalVisible := none },
    hazePresent := true, grainPresent := true, backgroundPresent := true }

/-- C2 counterexample: the session does not restore every piece of saved
state exactly.  Starting from preSessionState (ticker stopped, minFPS 30,
cached background), even the successful exit path leaves the ticker running
(wasTickerRunning is read only after setExportMode(true) force-started the
ticker, so the stop branch never fires), resets minFPS to the constant 10 and
backgroundCacheAsBitmap to false instead of the captured values. -/
theorem handleExportSession_not_exact_restore :
    (handleExportSession false preSessionState).render ≠ preSessionState.render ∧
    (handleExportSession false preSessionState).render.tickerStarted = true ∧
    preSessionState.render.tickerStarted = false ∧
    (handleExportSession false preSessionState).render.tickerMinFPS = 10 ∧
    preSessionState.render.tickerMinFPS = 30 ∧
    (handleExportSession false preSessionState).render.backgroundCacheAsBitmap = false ∧
    preSessionState.render.backgroundCacheAsBitmap = true := by
  decide

/-- C2 amended: on every exit path (success or failure) the finally block
restores the stage filter chain, the effects-layer, haze and grain
visibilities, and the play state exactly as captured before the session; but
backgroundCacheAsBitmap is reset to the constant false (when the background
layer exists), the FPS limits are reset to the constants maxFPS = 0 and
minFPS = 10, and the ticker is left running regardless of its pre-session run
state. -/
theorem handleExportSession_restores (failurePath : Bool) (s0 : CanvasState) :
    (handleExportSession failurePath s0).render.stageFilters = s0.render.stageFilters ∧
    (handleExportSession failurePath s0).render.effectsLayerVisible =
      s0.render.effectsLayerVisible ∧
    (handleExportSession failurePath s0).render.hazeVisible = s0.render.hazeVisible ∧
    (handleExportSession failurePath s0).render.grainVisible = s0.render.grainVisible ∧
    (handleExportSession failurePath s0).render.isPlaying = s0.render.isPlaying ∧
    (handleExportSession failurePath s0).render.backgroundCacheAsBitmap =
      (if s0.backgroundPresent then false else s0.render.backgroundCacheAsBitmap) ∧
    (handleExportSession failurePath s0).render.tickerStarted = true ∧
    (handleExportSession failurePath s0).render.tickerMaxFPS = 0 ∧
    (handleExportSession failurePath s0).render.tickerMinFPS = 10 := by
  rcases s0 with ⟨⟨f, ev, hv, gv, bc, ts, mx, mn, pl⟩, ⟨sof, soe, soh, sog⟩, hp, gp, bp⟩
  cases failurePath <;> cases hp <;> cases gp <;> cases bp <;> cases ts <;> cases pl <;>
    simp [handleExportSession, setExportMode, exportSessionRestore]

/-- Closed-form evaluation of the restore step, used to settle its
idempotence: restored fields come from the saved expando props when defined,
the expando props are deleted, cacheAsBitmap and the FPS limits are reset to
constants, and the ticker and play state follow the captured flags. -/
def restoredState (wasTickerRunning wasPlaying : Bool) (s : CanvasState) :
    CanvasState :=
  { render := {
      stageFilters := s.saved.originalFilters.getD s.render.stageFilters
      effectsLayerVisible :=
        s.saved.effectsOriginalVisible.getD s.render.effectsLayerVisible
      hazeVisible := if s.hazePresent then
          s.saved.hazeOriginalVisible.getD s.render.hazeVisible
        else s.render.hazeVisible
      grainVisible := if s.grainPresent then
          s.saved.grainOriginalVisible.getD s.render.grainVisible
        else s.render.grainVisible
      backgroundCacheAsBitmap :=
        if s.backgroundPresent then false else s.render.backgroundCacheAsBitmap
      tickerStarted := wasTickerRunning
      tickerMaxFPS := 0
      tickerMinFPS := 10
      isPlaying := if wasPlaying then s.render.isPlaying else false },
    saved := {
      originalFilters := none
      effectsOriginalVisible := none
      hazeOriginalVisible :=
        if s.hazePresent then none else s.saved.hazeOriginalVisible
      grainOriginalVisible :=
        if s.grainPresent then none else s.saved.grainOriginalVisible },
    hazePresent := s.hazePresent,
    grainPresent := s.grainPresent,
    backgroundPresent := s.backgroundPresent }

set_option maxHeartbeats 1000000 in
lemma exportSessionRestore_eval (wasTickerRunning wasPlaying : Bool)
    (s : CanvasState) :
    exportSessionRestore wasTickerRunning wasPlaying s =
      restoredState wasTickerRunning wasPlaying s := by
  rcases s with ⟨⟨f, ev, hv, gv, bc, ts, mx, mn, pl⟩, ⟨sof, soe, soh, sog⟩, hp, gp, bp⟩
  cases wasTickerRunning <;> cases wasPlaying <;>
    cases sof <;> cases soe <;> cases soh <;> cases sog <;>
    cases hp <;> cases gp <;> cases bp <;> cases ts <;> rfl

/-- C9: the restore step (setExportMode(false) together with the ticker and
play-state restoration) is idempotent: running it a second time does not
change the state beyond the first call's result. -/
theorem exportSessionRestore_idempotent (wasTickerRunning wasPlaying : Bool)
    (s : CanvasState) :
    exportSessionRestore wasTickerRunning wasPlaying
        (exportSessionRestore wasTickerRunning wasPlaying s) =
      exportSessionRestore wasTickerRunning wasPlaying s := by
  rw [exportSessionRestore_eval wasTickerRunning wasPlaying s,
    exportSessionRestore_eval wasTickerRunning wasPlaying
      (restoredState wasTickerRunning wasPlaying s)]
  rcases s with ⟨⟨f, ev, hv, gv, bc, ts, mx, mn, pl⟩, ⟨sof, soe, soh, sog⟩, hp, gp, bp⟩
  cases wasTickerRunning <;> cases wasPlaying <;> cases hp <;> cases gp <;> cases bp <;>
    simp [restoredState]

/-- The externally observable events of handleExport relevant to the failure
scenario (part_002, lines 294-873). -/
inductive ExportEvent where
  /-- ffmpeg.exec, the encoder invocation (line 772). -/
  | encoderInvoked
  /-- the encoded video blob handed onward (lines 774-786). -/
  | videoDelivered
  /-- the terminal failure notification shown from the catch block
  (lines 827-849). -/
  | failureReported
  /-- the finally-block render-state restoration (lines 850-865). -/
  | renderStateRestored
  deriving DecidableEq, Repr

/-- The event order of one handleExport run (part_002, lines 294-873).
`failAt = some i` with i < frameCount models the extraction task of frame i
throwing (lines 549-552): the batch's Promise.all rejects, the whole try body
aborts before any write or ffmpeg.exec, the catch block shows the failure
toast, and the finally block then restores the render state.  Otherwise the
try body runs to completion: encoder invocation, video delivery, then the
finally restoration. -/
def handleExportEvents (frameCount : ℕ) (failAt : Option ℕ) : List ExportEvent :=
  match failAt with
  | some i =>
      if i < frameCount then
        [ExportEvent.failureReported, ExportEvent.renderStateRestored]
      else
        [ExportEvent.encoderInvoked, ExportEvent.videoDelivered,
         ExportEvent.renderStateRestored]
  | none =>
      [ExportEvent.encoderInvoked, ExportEvent.videoDelivered,
       ExportEvent.renderStateRestored]

/-- C5 counterexample to the ordering part of the claim: when extraction of
frame 5 of 24 fails, the run's events are exactly the failure notification
followed by the restoration — the catch block reports the failure before the
finally block restores the render state, so the state is not restored before
the failure is reported. -/
theorem handleExport_failure_report_precedes_restore :
    handleExportEvents 24 (some 5) =
      [ExportEvent.failureReported, ExportEvent.renderStateRestored] ∧
    ¬ ((handleExportEvents 24 (some 5)).indexOf ExportEvent.renderStateRestored <
        (handleExportEvents 24 (some 5)).indexOf ExportEvent.failureReported) := by
  exact ⟨rfl, by decide⟩

/-- C5 amended: if extraction of any single frame fails, the session fails as
a whole: the encoder is never invoked, no video is delivered (no partial
video), and the saved render state is still restored by the finally block —
which runs after the failure notification, not before it. -/
theorem handleExport_failure_aborts_whole_session (frameCount i : ℕ)
    (hi : i < frameCount) :
    ExportEvent.encoderInvoked ∉ handleExportEvents frameCount (some i) ∧
    ExportEvent.videoDelivered ∉ handleExportEvents frameCount (some i) ∧
    handleExportEvents frameCount (some i) =
      [ExportEvent.failureReported, ExportEvent.renderStateRestored] := by
  unfold handleExportEvents
  dsimp only
  rw [if_pos hi]
  refine ⟨by simp, by simp, rfl⟩

/-- C5 amended, witness: failure at frame 5 of a 24-frame session. -/
theorem handleExport_failure_aborts_whole_session_witness :
    ExportEvent.encoderInvoked ∉ handleExportEvents 24 (some 5) ∧
    ExportEvent.videoDelivered ∉ handleExportEvents 24 (some 5) ∧
    handleExportEvents 24 (some 5) =
      [ExportEvent.failureReported, ExportEvent.renderStateRestored] :=
  handleExport_failure_aborts_whole_session 24 5 (by decide)
